import Mathlib

/-!
Shallow embedding of the email triage pipeline of `src/email_assistant.py`
(class `EmailAssistant` and the regenerate endpoint).

Python strings are modelled as Lean `String`s, with the character-level
work done on `String.data : List Char`.  `str.lower` is modelled by
`Char.toLower` on each character (the ASCII case mapping), the regular
expressions of the source are compiled by hand into matching functions over
`List Char` (each one is documented next to the source pattern it embeds),
and floats only ever appear as the literal confidences 0.7 / 0.6, modelled
as rationals.
-/

namespace EmailAssist

/-- Python `str.lower()` (ASCII case mapping, applied per character). -/
def pyLower (s : String) : String := String.mk (s.data.map Char.toLower)

/-- Case-sensitive prefix test on character lists. -/
def prefixAt : List Char → List Char → Bool
  | [], _ => true
  | _ :: _, [] => false
  | a :: as, b :: bs => a = b && prefixAt as bs

/-- `needle` occurs as a contiguous substring of `hay`: Python `needle in hay`. -/
def containsSub (needle : List Char) : List Char → Bool
  | [] => prefixAt needle []
  | c :: rest => prefixAt needle (c :: rest) || containsSub needle rest

/-- Python `needle in hay` on strings (`strContains hay needle`). -/
def strContains (hay needle : String) : Bool := containsSub needle.data hay.data

/-- A word character of the `re` module's `\w` (ASCII model): alphanumeric or underscore. -/
def isWordChar (c : Char) : Bool := c.isAlphanum || c = '_'

/-- A position next to `c?` is outside any word (`none` stands for the text's edge). -/
def boundaryOk : Option Char → Bool
  | none => true
  | some c => !isWordChar c

/-- `re.search(r"\bw\b", s)` would match at this position: the word `w` (made of
word characters) is a prefix here, the previous character is no word character,
and neither is the character right after the match. -/
def wbMatchAt (w : List Char) (prev : Option Char) (s : List Char) : Bool :=
  boundaryOk prev && prefixAt w s && boundaryOk (s.drop w.length).head?

/-- Scan of `re.search(r"\bw\b", s)` over all positions, tracking the previous character. -/
def wbSearchAux (w : List Char) : Option Char → List Char → Bool
  | prev, [] => wbMatchAt w prev []
  | prev, c :: rest => wbMatchAt w prev (c :: rest) || wbSearchAux w (some c) rest

/-- `re.search` of the word-boundary pattern `\bw\b` anywhere in `s`. -/
def wbSearch (w : String) (s : String) : Bool := wbSearchAux w.data none s.data

/-! ### Urgency scoring (`EmailAssistant.determine_priority`, lines 265-281) -/

/-- `self.urgent_keywords` (constructor, lines 35-39). -/
def urgent_keywords : List String :=
  ["urgent", "critical", "emergency", "asap", "immediately", "cannot access",
   "system down", "not working", "broken", "error", "failed", "blocked",
   "deadline", "production", "outage", "severe", "major issue"]

/-- The words of `time_patterns` (lines 272-275): each entry there is the
regex `\bword\b`, modelled here by the bare word matched through `wbSearch`. -/
def time_patterns : List String :=
  ["asap", "immediately", "urgent", "critical", "emergency", "deadline", "today", "now"]

/-- `urgent_score` of `determine_priority`: how many urgent keywords occur as
substrings of the lowercased text. -/
def urgentScore (text : String) : Nat :=
  urgent_keywords.countP (fun keyword => strContains text keyword)

/-- `time_urgency` of `determine_priority`: how many of the word-boundary
time patterns match the lowercased text. -/
def timeUrgency (text : String) : Nat :=
  time_patterns.countP (fun w => wbSearch w text)

/-- `EmailAssistant.determine_priority(subject, body)` (lines 265-281). -/
def determine_priority (subject body : String) : String :=
  let text := pyLower (subject ++ " " ++ body)
  let urgent_score := urgent_keywords.countP (fun keyword => strContains text keyword)
  let time_urgency := time_patterns.countP (fun w => wbSearch w text)
  let total_urgency := urgent_score + time_urgency
  if 2 ≤ total_urgency then "urgent" else "normal"

/-! ### Rule-based sentiment (`EmailAssistant.rule_based_sentiment`, lines 249-263) -/

/-- `positive_words` of `rule_based_sentiment`. -/
def positive_words : List String :=
  ["thank", "great", "excellent", "love", "amazing", "perfect", "wonderful"]

/-- `negative_words` of `rule_based_sentiment`. -/
def negative_words : List String :=
  ["problem", "issue", "error", "broken", "frustrated", "angry", "terrible", "awful"]

/-- Number of positive-lexicon words present in the lowercased text. -/
def positiveCount (text : String) : Nat :=
  positive_words.countP (fun word => strContains (pyLower text) word)

/-- Number of negative-lexicon words present in the lowercased text. -/
def negativeCount (text : String) : Nat :=
  negative_words.countP (fun word => strContains (pyLower text) word)

/-- `EmailAssistant.rule_based_sentiment(text)` (lines 249-263); the float
confidences 0.7 and 0.6 are modelled as rationals. -/
def rule_based_sentiment (text : String) : String × ℚ :=
  let text_lower := pyLower text
  let positive_count := positive_words.countP (fun word => strContains text_lower word)
  let negative_count := negative_words.countP (fun word => strContains text_lower word)
  if negative_count < positive_count then ("positive", 7/10)
  else if positive_count < negative_count then ("negative", 7/10)
  else ("neutral", 6/10)

/-- C1: `determine_priority` lowercases `subject ++ " " ++ body`, counts the
urgent keywords present as substrings plus the word-boundary time patterns
found, and returns "urgent" exactly when the two counts sum to at least 2,
else "normal".  Being a Lean function of the two strings, it is pure. -/
theorem determine_priority_urgent_iff (subject body : String) :
    (determine_priority subject body = "urgent" ↔
      2 ≤ urgentScore (pyLower (subject ++ " " ++ body))
          + timeUrgency (pyLower (subject ++ " " ++ body)))
    ∧ (determine_priority subject body = "normal" ↔
      urgentScore (pyLower (subject ++ " " ++ body))
          + timeUrgency (pyLower (subject ++ " " ++ body)) < 2) := by
  unfold determine_priority urgentScore timeUrgency
  dsimp only
  constructor
  · split
    · simp only [true_iff]; omega
    · simp_all
  · split
    · simp_all
    · simp only [true_iff]; omega

/-- C2: the rule-based sentiment fallback returns ("positive", 0.7) when the
positive-lexicon count exceeds the negative one, ("negative", 0.7) in the
opposite case, and ("neutral", 0.6) on any tie, the 0-0 tie included; as a
Lean function it is deterministic and pure. -/
theorem rule_based_sentiment_cases (text : String) :
    (negativeCount text < positiveCount text →
      rule_based_sentiment text = ("positive", 7/10))
    ∧ (positiveCount text < negativeCount text →
      rule_based_sentiment text = ("negative", 7/10))
    ∧ (positiveCount text = negativeCount text →
      rule_based_sentiment text = ("neutral", 6/10)) := by
  unfold rule_based_sentiment positiveCount negativeCount
  dsimp only
  refine ⟨fun h => ?_, fun h => ?_, fun h => ?_⟩
  · rw [if_pos h]
  · rw [if_neg (by omega), if_pos h]
  · rw [if_neg (by omega), if_neg (by omega)]

/-- Witness for C2 at concrete inputs: a text with positive hits only is
classified positive, one with negative hits only negative, and the empty
text (a 0-0 tie) neutral. -/
theorem rule_based_sentiment_cases_witness :
    rule_based_sentiment "Thank you, great service, I love it" = ("positive", 7/10)
    ∧ rule_based_sentiment "this is broken and I am frustrated" = ("negative", 7/10)
    ∧ rule_based_sentiment "" = ("neutral", 6/10) :=
  ⟨(rule_based_sentiment_cases "Thank you, great service, I love it").1 (by decide),
   (rule_based_sentiment_cases "this is broken and I am frustrated").2.1 (by decide),
   (rule_based_sentiment_cases "").2.2 (by decide)⟩

/-! ### C9: the six words that are both urgent keywords and time patterns -/

/-- The words that appear both in `urgent_keywords` and (as `\bw\b` regexes)
in `time_patterns`, so that a single occurrence is counted twice. -/
def doubleCountedWords : List String :=
  ["urgent", "critical", "emergency", "asap", "immediately", "deadline"]

/-- C9: one word-boundary occurrence of a single word among urgent / critical /
emergency / asap / immediately / deadline contributes one keyword hit and one
pattern hit, so `determine_priority` already answers "urgent".  The theorem
has no hypothesis about other hits being absent, so it covers in particular
the texts of the claim, where the chosen word is the only hit. -/
theorem double_counted_word_is_urgent (subject body w : String)
    (hw : w ∈ doubleCountedWords)
    (hsub : strContains (pyLower (subject ++ " " ++ body)) w = true)
    (hwb : wbSearch w (pyLower (subject ++ " " ++ body)) = true) :
    determine_priority subject body = "urgent" := by
  have hk : w ∈ urgent_keywords := by fin_cases hw <;> decide
  have hp : w ∈ time_patterns := by fin_cases hw <;> decide
  have h1 : 0 < urgent_keywords.countP
      (fun keyword => strContains (pyLower (subject ++ " " ++ body)) keyword) :=
    List.countP_pos_iff.mpr ⟨w, hk, hsub⟩
  have h2 : 0 < time_patterns.countP
      (fun p => wbSearch p (pyLower (subject ++ " " ++ body))) :=
    List.countP_pos_iff.mpr ⟨w, hp, hwb⟩
  unfold determine_priority
  dsimp only
  rw [if_pos (by omega)]

/-- Witness for C9: the word "deadline" alone makes the email urgent. -/
theorem double_counted_word_is_urgent_witness :
    determine_priority "deadline" "for the report" = "urgent" :=
  double_counted_word_is_urgent "deadline" "for the report" "deadline"
    (by decide) (by decide) (by decide)

/-! ### Knowledge base (`EmailAssistant.load_knowledge_base`, lines 107-150,
and `EmailAssistant.find_best_solution`, lines 351-382) -/

/-- A row of the `knowledge_base` table. -/
structure KnowledgeEntry where
  category : String
  keywords : String
  solution : String
  escalation_info : String

/-- Python whitespace as `str.strip` / `\s` see it (ASCII model). -/
def isPyWhite (c : Char) : Bool :=
  c = ' ' || c = '\t' || c = '\n' || c = '\r' || c = '\x0b' || c = '\x0c'

/-- Python `s.split(',')` on character lists. -/
def splitComma : List Char → List (List Char)
  | [] => [[]]
  | c :: rest =>
    match splitComma rest with
    | [] => [[]]
    | g :: gs => if c = ',' then [] :: g :: gs else (c :: g) :: gs

/-- Python `s.strip()` on character lists. -/
def pyStrip (s : List Char) : List Char :=
  ((s.dropWhile isPyWhite).reverse.dropWhile isPyWhite).reverse

/-- `[kw.strip() for kw in kb_keywords.split(',')]` (line 364). -/
def kbKeywordList (kb_keywords : String) : List String :=
  (splitComma kb_keywords.data).map (fun g => String.mk (pyStrip g))

/-- The `account_access` knowledge entry (lines 110-115). -/
def kbAccountAccess : KnowledgeEntry where
  category := "account_access"
  keywords := "login, password, access, account, locked, authentication, signin, credentials"
  solution := "For account access issues: 1) Try clearing browser cache and cookies 2) Reset password using \"Forgot Password\" link 3) Check if caps lock is on 4) Try different browser or incognito mode"
  escalation_info := "If issue persists after basic troubleshooting, escalate to security team for account unlock"

/-- The `technical_issues` knowledge entry (lines 116-121). -/
def kbTechnicalIssues : KnowledgeEntry where
  category := "technical_issues"
  keywords := "error, bug, broken, not working, technical, system, crash, freeze, slow"
  solution := "For technical issues: 1) Check internet connection 2) Clear browser cache 3) Update browser to latest version 4) Try different device 5) Check system status page"
  escalation_info := "Complex technical issues should be forwarded to technical support team"

/-- The `billing_payment` knowledge entry (lines 122-127). -/
def kbBillingPayment : KnowledgeEntry where
  category := "billing_payment"
  keywords := "billing, payment, invoice, charge, refund, subscription, price, cost, money"
  solution := "For billing inquiries: 1) Check your billing portal for invoice details 2) Verify payment method is valid 3) Contact billing support for refund requests"
  escalation_info := "Billing disputes require finance team approval"

/-- The `feature_request` knowledge entry (lines 128-133). -/
def kbFeatureRequest : KnowledgeEntry where
  category := "feature_request"
  keywords := "feature, request, suggestion, enhancement, improvement, new, add, update"
  solution := "Thank you for your feature suggestion! We appreciate your feedback. Please visit our feature request portal to submit detailed requirements."
  escalation_info := "Feature requests should be logged with product team for roadmap consideration"

/-- The `integration_api` knowledge entry (lines 134-139). -/
def kbIntegrationApi : KnowledgeEntry where
  category := "integration_api"
  keywords := "api, integration, webhook, developer, code, sdk, documentation, endpoint"
  solution := "For API/integration support: 1) Check our developer documentation 2) Verify API key is valid 3) Ensure proper authentication headers 4) Check rate limits"
  escalation_info := "Complex integration issues require developer support team assistance"

/-- The knowledge base in load order (`knowledge_entries`, lines 109-140);
`find_best_solution` iterates it in this order. -/
def knowledge_entries : List KnowledgeEntry :=
  [kbAccountAccess, kbTechnicalIssues, kbBillingPayment, kbFeatureRequest, kbIntegrationApi]

/-- The score of one knowledge entry (lines 362-372):
`overlap = |set(keywords) & set(kb_keywords_list)|` (case-sensitive),
`text_similarity` = how many entry keywords occur, lowercased, in the
lowercased `subject + " " + body`; the total is `overlap * 2 + text_similarity`. -/
def entryScore (keywords : List String) (subject body : String) (e : KnowledgeEntry) : Nat :=
  let text := subject ++ " " ++ body
  let kb_keywords_list := kbKeywordList e.keywords
  let overlap := ((keywords.dedup).filter (fun k => kb_keywords_list.contains k)).length
  let text_similarity := kb_keywords_list.countP
    (fun kw => strContains (pyLower text) (pyLower kw))
  overlap * 2 + text_similarity

/-- The running-best loop of `find_best_solution` (lines 359-376): an entry
replaces the current best only when its score is strictly greater than the
running `best_score`, which starts at 0. -/
def bestLoop (score : KnowledgeEntry → Nat) :
    List KnowledgeEntry → Option (String × String) → Nat → Option (String × String)
  | [], best_match, _ => best_match
  | e :: rest, best_match, best_score =>
    if best_score < score e then bestLoop score rest (some (e.solution, e.escalation_info)) (score e)
    else bestLoop score rest best_match best_score

/-- The generic fallback solution (line 381). -/
def genericSolution : String :=
  "I'll look into your inquiry and get back to you with a detailed response shortly."

/-- The generic fallback escalation note (line 382). -/
def genericEscalation : String :=
  "General inquiry - route to appropriate team based on content"

/-- `EmailAssistant.find_best_solution(keywords, subject, body)` (lines 351-382). -/
def find_best_solution (keywords : List String) (subject body : String) : String × String :=
  match bestLoop (entryScore keywords subject body) knowledge_entries none 0 with
  | some best_match => best_match
  | none => (genericSolution, genericEscalation)

/-- The largest entry score over a list of knowledge entries. -/
def maxScore (score : KnowledgeEntry → Nat) (l : List KnowledgeEntry) : Nat :=
  l.foldr (fun e m => max (score e) m) 0

theorem maxScore_cons (score : KnowledgeEntry → Nat) (e : KnowledgeEntry)
    (l : List KnowledgeEntry) :
    maxScore score (e :: l) = max (score e) (maxScore score l) := rfl

theorem maxScore_eq_zero_iff (score : KnowledgeEntry → Nat) (l : List KnowledgeEntry) :
    maxScore score l = 0 ↔ ∀ e ∈ l, score e = 0 := by
  induction l with
  | nil => simp [maxScore]
  | cons e t ih => simp [maxScore_cons, Nat.max_eq_zero_iff, ih]

theorem le_maxScore_of_mem (score : KnowledgeEntry → Nat) {e : KnowledgeEntry}
    {l : List KnowledgeEntry} (h : e ∈ l) : score e ≤ maxScore score l := by
  induction l with
  | nil => exact absurd h (List.not_mem_nil e)
  | cons b t ih =>
    rw [maxScore_cons]
    rcases List.mem_cons.mp h with rfl | ht
    · exact Nat.le_max_left _ _
    · exact le_trans (ih ht) (Nat.le_max_right _ _)

/-- When nothing in the list beats the running score, the loop keeps its best. -/
theorem bestLoop_stay (score : KnowledgeEntry → Nat) (l : List KnowledgeEntry)
    (best : Option (String × String)) (b : Nat) (h : maxScore score l ≤ b) :
    bestLoop score l best b = best := by
  induction l generalizing best b with
  | nil => rfl
  | cons e t ih =>
    rw [maxScore_cons, Nat.max_le] at h
    unfold bestLoop
    rw [if_neg (by omega)]
    exact ih best b h.2

/-- When something in the list beats the running score, the loop ends on the
first entry attaining the list's maximal score. -/
theorem bestLoop_first_max (score : KnowledgeEntry → Nat) (l : List KnowledgeEntry)
    (best : Option (String × String)) (b : Nat) (h : b < maxScore score l) :
    ∃ e, l.find? (fun x => score x == maxScore score l) = some e
      ∧ bestLoop score l best b = some (e.solution, e.escalation_info) := by
  induction l generalizing best b with
  | nil => simp [maxScore] at h
  | cons e t ih =>
    rw [maxScore_cons] at h
    by_cases hc : maxScore score t ≤ score e
    · have hM : max (score e) (maxScore score t) = score e := Nat.max_eq_left hc
      have hb : b < score e := by omega
      refine ⟨e, ?_, ?_⟩
      · rw [List.find?_cons_of_pos _ (by simp [maxScore_cons, hM])]
      · unfold bestLoop
        rw [if_pos hb]
        exact bestLoop_stay score t _ _ (by omega)
    · push_neg at hc
      have hM : max (score e) (maxScore score t) = maxScore score t :=
        Nat.max_eq_right (le_of_lt hc)
      have hfe : (score e == max (score e) (maxScore score t)) = false := by
        rw [hM]; simp; omega
      by_cases hb : b < score e
      · obtain ⟨e', hf, hl⟩ := ih (some (e.solution, e.escalation_info)) (score e) hc
        refine ⟨e', ?_, ?_⟩
        · rw [List.find?_cons_of_neg _ (by simp [maxScore_cons, hfe])]
          rw [maxScore_cons, hM]
          exact hf
        · unfold bestLoop
          rw [if_pos hb]
          exact hl
      · push_neg at hb
        obtain ⟨e', hf, hl⟩ := ih best b (by omega)
        refine ⟨e', ?_, ?_⟩
        · rw [List.find?_cons_of_neg _ (by simp [maxScore_cons, hfe])]
          rw [maxScore_cons, hM]
          exact hf
        · unfold bestLoop
          rw [if_neg (by omega)]
          exact hl

/-- C3: `find_best_solution` scores each entry `2 * overlap + text_hits`
(see `entryScore`), adopts an entry only on a strictly greater score than the
running best (so the earliest entry among ties wins: the loop ends on the
`find?`-first entry attaining the maximal score), and falls back to the
generic solution and escalation note when every entry scores zero. -/
theorem find_best_solution_spec (keywords : List String) (subject body : String) :
    ((∀ e ∈ knowledge_entries, entryScore keywords subject body e = 0) →
      find_best_solution keywords subject body = (genericSolution, genericEscalation))
    ∧ ((∃ e ∈ knowledge_entries, 0 < entryScore keywords subject body e) →
      ∃ e, knowledge_entries.find?
          (fun x => entryScore keywords subject body x ==
            maxScore (entryScore keywords subject body) knowledge_entries) = some e
        ∧ entryScore keywords subject body e =
            maxScore (entryScore keywords subject body) knowledge_entries
        ∧ find_best_solution keywords subject body = (e.solution, e.escalation_info)) := by
  constructor
  · intro h0
    have : maxScore (entryScore keywords subject body) knowledge_entries ≤ 0 :=
      le_of_eq ((maxScore_eq_zero_iff _ _).mpr h0)
    unfold find_best_solution
    rw [bestLoop_stay _ _ _ _ this]
  · rintro ⟨e, he, hpos⟩
    have hlt : 0 < maxScore (entryScore keywords subject body) knowledge_entries :=
      lt_of_lt_of_le hpos (le_maxScore_of_mem _ he)
    obtain ⟨e', hf, hl⟩ := bestLoop_first_max (entryScore keywords subject body)
      knowledge_entries none 0 hlt
    refine ⟨e', hf, ?_, ?_⟩
    · have := List.find?_some hf
      simpa using this
    · unfold find_best_solution
      rw [hl]

/-- Witness for C3: with no keywords and empty text every entry scores zero
and the generic fallback is returned; with the extracted keyword "invoice"
the billing entry is the first (and only) maximal-score entry and its
solution is returned. -/
theorem find_best_solution_spec_witness :
    find_best_solution [] "" "" = (genericSolution, genericEscalation)
    ∧ (∃ e, knowledge_entries.find?
          (fun x => entryScore ["invoice"] "" "" x ==
            maxScore (entryScore ["invoice"] "" "") knowledge_entries) = some e
        ∧ entryScore ["invoice"] "" "" e =
            maxScore (entryScore ["invoice"] "" "") knowledge_entries
        ∧ find_best_solution ["invoice"] "" "" = (e.solution, e.escalation_info)) :=
  ⟨(find_best_solution_spec [] "" "").1 (by decide),
   (find_best_solution_spec ["invoice"] "" "").2
     ⟨kbBillingPayment, by simp [knowledge_entries], by decide⟩⟩

/-- A predicate holding at exactly one element of a duplicate-free list is
counted exactly once. -/
theorem countP_eq_one_of {α : Type} (p : α → Bool) (a : α) :
    ∀ l : List α, l.Nodup → a ∈ l → p a = true →
      (∀ x ∈ l, x ≠ a → p x = false) → l.countP p = 1 := by
  intro l
  induction l with
  | nil => intro _ h; exact absurd h (List.not_mem_nil a)
  | cons b t ih =>
    intro hnd hmem hpa hother
    rcases List.mem_cons.mp hmem with rfl | hat
    · have h0 : t.countP p = 0 := List.countP_eq_zero.mpr (fun x hx => by
        have hxa : x ≠ a := fun h => (List.nodup_cons.mp hnd).1 (h ▸ hx)
        simp [hother x (List.mem_cons_of_mem _ hx) hxa])
      rw [List.countP_cons_of_pos _ _ hpa, h0]
    · have hba : b ≠ a := fun h => (List.nodup_cons.mp hnd).1 (h ▸ hat)
      rw [List.countP_cons_of_neg _ _ (by simp [hother b (List.mem_cons_self b t) hba])]
      exact ih (List.nodup_cons.mp hnd).2 hat hpa
        (fun x hx => hother x (List.mem_cons_of_mem _ hx))

/-- C10: in `entryScore` the overlap term compares extracted keywords to entry
keywords case-sensitively while the text-hit term is case-insensitive.  When
exactly one entry keyword `k` occurs in the lowercased text, extracting `k`
itself scores `2*1 + 1 = 3`, while extracting any differently-cased variant
`kCased` of it (not literally an entry keyword) scores only `0 + 1 = 1`. -/
theorem overlap_is_case_sensitive (e : KnowledgeEntry) (he : e ∈ knowledge_entries)
    (k kCased subject body : String)
    (hk : k ∈ kbKeywordList e.keywords)
    (hck : kCased ∉ kbKeywordList e.keywords)
    (_hcase : pyLower kCased = pyLower k)
    (hhit : strContains (pyLower (subject ++ " " ++ body)) (pyLower k) = true)
    (honly : ∀ x ∈ kbKeywordList e.keywords, x ≠ k →
      strContains (pyLower (subject ++ " " ++ body)) (pyLower x) = false) :
    entryScore [k] subject body e = 3 ∧ entryScore [kCased] subject body e = 1 := by
  have hnd : (kbKeywordList e.keywords).Nodup := by
    fin_cases he <;> decide
  have htext : (kbKeywordList e.keywords).countP
      (fun kw => strContains (pyLower (subject ++ " " ++ body)) (pyLower kw)) = 1 :=
    countP_eq_one_of _ k _ hnd hk hhit honly
  constructor
  · unfold entryScore
    dsimp only
    have hov : (([k].dedup).filter
        (fun x => (kbKeywordList e.keywords).contains x)) = [k] := by
      simp [List.filter, hk]
    rw [hov, htext]
    rfl
  · unfold entryScore
    dsimp only
    have hov : (([kCased].dedup).filter
        (fun x => (kbKeywordList e.keywords).contains x)) = [] := by
      simp [List.filter, hck]
    rw [hov, htext]
    rfl

/-- Witness for C10: the integration entry's keyword "api", present once in
the text, scores 3 when extracted as "api" and 1 when extracted as "API". -/
theorem overlap_is_case_sensitive_witness :
    entryScore ["api"] "" "api" kbIntegrationApi = 3
    ∧ entryScore ["API"] "" "api" kbIntegrationApi = 1 :=
  overlap_is_case_sensitive kbIntegrationApi (by simp [knowledge_entries])
    "api" "API" "" "api" (by decide) (by decide) (by decide) (by decide) (by decide)

/-! ### Keyword extraction (`EmailAssistant.extract_keywords`, lines 283-305) -/

/-- Case-insensitive prefix test (`re.IGNORECASE`, ASCII case mapping). -/
def ciPrefixOf : List Char → List Char → Bool
  | [], _ => true
  | _ :: _, [] => false
  | a :: as, b :: bs => a.toLower = b.toLower && ciPrefixOf as bs

/-- One position of a `re.findall(r"\b(alt1|alt2|...)\b", text, re.IGNORECASE)`
scan: the first alternative that matches here case-insensitively with a word
boundary on both sides (no alternative of the source patterns is a prefix of
another, so at most one can match at a position).  Returns the matched text
in its original case, as `findall` does. -/
def wbAltAt (alts : List (List Char)) (prev : Option Char) (s : List Char) : Option (List Char) :=
  if boundaryOk prev then
    alts.findSome? (fun w =>
      if ciPrefixOf w s && boundaryOk ((s.drop w.length).head?) then some (s.take w.length)
      else none)
  else none

/-- The whole `findall` scan for a word-boundary alternation: left to right,
non-overlapping, continuing right after each match.  `fuel` bounds the
recursion by the text length (every step consumes at least one character). -/
def wbFindAllAux (alts : List (List Char)) : Nat → Option Char → List Char → List (List Char)
  | 0, _, _ => []
  | _ + 1, _, [] => []
  | fuel + 1, prev, c :: rest =>
    match wbAltAt alts prev (c :: rest) with
    | some m =>
      if m.isEmpty then wbFindAllAux alts fuel (some c) rest
      else m :: wbFindAllAux alts fuel m.getLast? ((c :: rest).drop m.length)
    | none => wbFindAllAux alts fuel (some c) rest

/-- `re.findall` of one of the four `tech_patterns` (lines 289-294). -/
def wbFindAll (alts : List String) (text : String) : List String :=
  (wbFindAllAux (alts.map String.data) text.data.length none text.data).map String.mk

/-- Alternatives of `\b(api|sdk|webhook|integration|database|server|application)\b`. -/
def tech_pattern1 : List String :=
  ["api", "sdk", "webhook", "integration", "database", "server", "application"]

/-- Alternatives of `\b(error code|bug|crash|timeout|connection)\b`. -/
def tech_pattern2 : List String :=
  ["error code", "bug", "crash", "timeout", "connection"]

/-- Alternatives of `\b(account|login|password|authentication|access)\b`. -/
def tech_pattern3 : List String :=
  ["account", "login", "password", "authentication", "access"]

/-- Alternatives of `\b(billing|payment|invoice|subscription|refund)\b`. -/
def tech_pattern4 : List String :=
  ["billing", "payment", "invoice", "subscription", "refund"]

/-- The ordered `tech_patterns` list of `extract_keywords` (lines 289-294). -/
def tech_patterns : List (List String) :=
  [tech_pattern1, tech_pattern2, tech_pattern3, tech_pattern4]

/-- The keyword list `extract_keywords` builds before its final
`list(set(keywords))[:10]` (lines 286-304): all pattern matches in order,
then every urgent keyword occurring in the lowercased text. -/
def extractKeywordsRaw (text : String) : List String :=
  (tech_patterns.flatMap (fun pattern => wbFindAll pattern text)) ++
    urgent_keywords.filter (fun keyword => strContains (pyLower text) keyword)

/-- Ordered de-duplication keeping the first occurrence of each keyword: the
behaviour the spec prescribes for `extract_keywords`.  The source instead
computes `list(set(keywords))`, whose order is the iteration order of a
Python `set` of strings, i.e. depends on the per-process hash seed. -/
def dedupKeepFirst (l : List String) : List String :=
  l.foldl (fun acc x => if acc.contains x then acc else acc ++ [x]) []

/-- C4 (evaluation at the failing input): on the text "login password" the
keyword list built by `extract_keywords` before de-duplication is
`["login", "password"]` in first-seen order, and ordered de-duplication
keeps that order.  The source's `list(set(keywords))[:10]` instead returns
these two strings in the set's hash-dependent iteration order, so the claim's
first-seen order is not what the code guarantees. -/
theorem extract_keywords_first_seen_order :
    extractKeywordsRaw "login password" = ["login", "password"]
    ∧ dedupKeepFirst (extractKeywordsRaw "login password") = ["login", "password"] := by
  constructor <;> rfl

/-! ### Response synthesis (`EmailAssistant.load_response_templates`, lines 152-218,
and `EmailAssistant.generate_ai_response`, lines 384-424) -/

/-- The `urgent_negative` template (lines 155-172). -/
def urgentNegativeTemplate : String := "Dear {sender_name},

Thank you for reaching out, and I sincerely apologize for the urgent issue you're experiencing. I understand how critical this situation is for you.

I'm prioritizing your request and escalating it to our specialized team immediately. Here's what we're doing to resolve this:

{solution}

Expected resolution time: Within 2 hours
Ticket reference: #{ticket_id}

I'll personally monitor this case and update you every 30 minutes until resolved. You can also reach our emergency support line at +1-800-SUPPORT.

We truly appreciate your patience during this critical situation.

Best regards,
AI Support Assistant
Customer Success Team"

/-- The `normal_positive` template (lines 174-186). -/
def normalPositiveTemplate : String := "Hello {sender_name},

Thank you for your message! We're delighted to hear from you and appreciate your continued trust in our services.

{solution}

{additional_info}

If you need any further assistance or have additional questions, please don't hesitate to reach out. We're here to ensure you have the best possible experience.

Best regards,
AI Support Assistant
Customer Success Team"

/-- The `normal_neutral` template (lines 188-200). -/
def normalNeutralTemplate : String := "Hello {sender_name},

Thank you for contacting us. We're here to help with your inquiry.

{solution}

{additional_info}

If this doesn't resolve your issue or if you have any other questions, please let us know. We're committed to providing you with the support you need.

Best regards,
AI Support Assistant
Customer Success Team"

/-- The `urgent_neutral` template (lines 202-217). -/
def urgentNeutralTemplate : String := "Dear {sender_name},

Thank you for your urgent request. I understand the importance of resolving this quickly.

I'm prioritizing your case and here's how we can address this:

{solution}

Expected resolution time: Within 4 hours
Priority ticket: #{ticket_id}

I'll keep you updated on our progress. For immediate assistance, please call our priority support line.

Best regards,
AI Support Assistant
Customer Success Team"

/-- `load_response_templates` (lines 152-218): only these four
(priority, sentiment) combinations have dedicated templates. -/
def response_templates : List (String × String) :=
  [("urgent_negative", urgentNegativeTemplate),
   ("normal_positive", normalPositiveTemplate),
   ("normal_neutral", normalNeutralTemplate),
   ("urgent_neutral", urgentNeutralTemplate)]

/-- Dictionary lookup in `self.response_templates`. -/
def templateLookup (template_key : String) : Option String :=
  response_templates.lookup template_key

/-- Lines 396-398: `template_key = f"{priority}_{sentiment}"`, replaced by
`normal_neutral` when the key is not in the template dictionary. -/
def resolveTemplateKey (priority sentiment : String) : String :=
  let template_key := priority ++ "_" ++ sentiment
  if (templateLookup template_key).isSome then template_key else "normal_neutral"

/-- Python `str.title()` on character lists (ASCII model): the first letter of
each run of letters is uppercased, the following letters lowercased. -/
def pyTitleAux : Bool → List Char → List Char
  | _, [] => []
  | prevAlpha, c :: rest =>
    if c.isAlpha then (if prevAlpha then c.toLower else c.toUpper) :: pyTitleAux true rest
    else c :: pyTitleAux false rest

/-- Line 387: `email_data['sender'].split('@')[0].replace('.', ' ').title()`. -/
def senderName (sender : String) : String :=
  String.mk (pyTitleAux false
    ((sender.data.takeWhile (fun c => c ≠ '@')).map (fun c => if c = '.' then ' ' else c)))

/-- The pieces of a `str.format` template: literal runs (as single characters)
and `{name}` placeholder fields.  Here `fuel` bounds the recursion by the
template length; a stray `}` is read as a literal and an unclosed `{` runs to
the end of the text — neither occurs in the fixed templates, whose braces are
balanced around plain field names. -/
def parseFormatAux : Nat → List Char → List (List Char ⊕ List Char)
  | 0, _ => []
  | _ + 1, [] => []
  | fuel + 1, c :: rest =>
    if c = '{' then
      Sum.inr (rest.takeWhile (fun x => x ≠ '}')) ::
        parseFormatAux fuel (rest.drop ((rest.takeWhile (fun x => x ≠ '}')).length + 1))
    else
      Sum.inl [c] :: parseFormatAux fuel rest

/-- A template split into literal pieces and placeholder fields. -/
def parseFormat (template : String) : List (List Char ⊕ List Char) :=
  parseFormatAux template.data.length template.data

/-- The keyword arguments of the `format` call of line 413: `sender_name`,
`solution`, `ticket_id`, `additional_info`.  (`str.format` would raise
`KeyError` on any other field name; the fixed templates contain no other
name, and the model substitutes the empty string there.) -/
def fieldValue (sender_name solution ticket_id additional_info : String)
    (name : List Char) : String :=
  if name = "sender_name".data then sender_name
  else if name = "solution".data then solution
  else if name = "ticket_id".data then ticket_id
  else if name = "additional_info".data then additional_info
  else ""

/-- Rendering of a parsed template: literals verbatim, each field replaced by
its value.  Substitution is simultaneous, as in `str.format`: substituted
values are never re-scanned for placeholders. -/
def renderTemplate (parsed : List (List Char ⊕ List Char))
    (sender_name solution ticket_id additional_info : String) : String :=
  match parsed with
  | [] => ""
  | Sum.inl lit :: rest =>
    String.mk lit ++ renderTemplate rest sender_name solution ticket_id additional_info
  | Sum.inr name :: rest =>
    fieldValue sender_name solution ticket_id additional_info name ++
      renderTemplate rest sender_name solution ticket_id additional_info

/-- `template.format(sender_name=..., solution=..., ticket_id=...,
additional_info=...)` of line 413. -/
def pyFormat (template sender_name solution ticket_id additional_info : String) : String :=
  renderTemplate (parseFormat template) sender_name solution ticket_id additional_info

/-- The generic acknowledgment the `except` handler of `generate_ai_response`
builds (line 424) once `sender_name` is bound. -/
def fallbackResponse (sender_name : String) : String :=
  "Dear " ++ sender_name ++ ",\n\nThank you for contacting us. We've received your message and will respond within 24 hours.\n\nBest regards,\nSupport Team"

/-- Line 390: `email_data['keywords'].split(', ') if email_data['keywords'] else []`. -/
def splitKeywordsField (keywords_str : String) : List String :=
  if keywords_str = "" then [] else keywords_str.splitOn ", "

/-- The successful path of `generate_ai_response` (lines 387-420) with the
ticket identifier (line 403: "SUP" + a second-resolution timestamp) passed in
as `ticket_id`, which is the only input that differs between two synthesis
calls on the same stored analysis fields. -/
def fillResponse (sender subject body priority sentiment keywords_str ticket_id : String) :
    String :=
  let sender_name := senderName sender
  let keywords := splitKeywordsField keywords_str
  let se := find_best_solution keywords subject body
  let template := (templateLookup (resolveTemplateKey priority sentiment)).getD ""
  let additional_info :=
    if strContains (pyLower body) "thank" then "We truly appreciate your positive feedback!"
    else if priority = "urgent" then "This case has been escalated. " ++ se.2
    else ""
  pyFormat template sender_name se.1 ticket_id additional_info

/-- The analysis record `generate_ai_response` receives: each field is `none`
when the corresponding dictionary key is missing (the access then raises
`KeyError` in the source). -/
structure EmailData where
  sender : Option String
  subject : Option String
  body : Option String
  priority : Option String
  sentiment : Option String
  keywords : Option String

/-- `EmailAssistant.generate_ai_response(email_data)` (lines 384-424).
`Except.ok` is a returned string; `Except.error ()` models the call raising.
The `try` body reads `sender` first (line 387); if that access fails,
`sender_name` is unbound and the `except` handler's f-string (line 424)
itself raises `UnboundLocalError`, so the call raises.  When any later field
access fails, the handler returns the generic acknowledgment built from the
already-bound `sender_name`.  `now` stands for the timestamp of line 403. -/
def generate_ai_response (email_data : EmailData) (now : String) : Except Unit String :=
  match email_data.sender with
  | none => Except.error ()
  | some sender =>
    match email_data.sentiment, email_data.priority, email_data.keywords,
        email_data.subject, email_data.body with
    | some sentiment, some priority, some keywords, some subject, some body =>
      Except.ok (fillResponse sender subject body priority sentiment keywords ("SUP" ++ now))
    | _, _, _, _, _ => Except.ok (fallbackResponse (senderName sender))

/-- C5 (evaluation at the failing input): on a record whose `sender` field is
missing, `generate_ai_response` raises (the `except` handler references the
unbound `sender_name`) instead of returning the generic acknowledgment
string, so synthesis is not total over malformed analysis records. -/
theorem generate_ai_response_missing_sender_raises :
    generate_ai_response ⟨none, none, none, none, none, none⟩ "20250101120000"
      = Except.error () := rfl

/-- C6: the computed `template_key` always resolves to a key of the template
dictionary; the four dedicated combinations resolve to themselves, and every
other combination, in particular urgent_positive and normal_negative, falls
back to `normal_neutral`. -/
theorem template_key_always_resolves (priority sentiment : String) :
    (templateLookup (resolveTemplateKey priority sentiment)).isSome = true
    ∧ resolveTemplateKey "urgent" "negative" = "urgent_negative"
    ∧ resolveTemplateKey "normal" "positive" = "normal_positive"
    ∧ resolveTemplateKey "normal" "neutral" = "normal_neutral"
    ∧ resolveTemplateKey "urgent" "neutral" = "urgent_neutral"
    ∧ resolveTemplateKey "urgent" "positive" = "normal_neutral"
    ∧ resolveTemplateKey "normal" "negative" = "normal_neutral" := by
  refine ⟨?_, by decide, by decide, by decide, by decide, by decide, by decide⟩
  unfold resolveTemplateKey
  dsimp only
  split
  · next h => exact h
  · decide

/-! ### Contact extraction (`EmailAssistant.extract_contact_info`, lines 307-329)

The three regexes are compiled by hand into backtracking matchers over
`List Char`.  A `Matcher` returns, for one start position, the list of
possible (consumed text, remaining text) splits in the backtracking
preference order of the `re` module (greedy quantifiers longest first,
`?` with the character first, alternatives left to right); the scan over
start positions then takes the first successful split, as `re.findall`
takes the leftmost match. -/

/-- Alternatives of a match at one position: (consumed, rest), best first. -/
abbrev Matcher := List Char → List (List Char × List Char)

/-- A literal character. -/
def mchr (c : Char) : Matcher := fun s =>
  match s with
  | [] => []
  | x :: rest => if x = c then [([x], rest)] else []

/-- A character class. -/
def mcls (p : Char → Bool) : Matcher := fun s =>
  match s with
  | [] => []
  | x :: rest => if p x then [([x], rest)] else []

/-- Concatenation, backtracking through both sides in preference order. -/
def mseq (a b : Matcher) : Matcher := fun s =>
  (a s).flatMap (fun pr => (b pr.2).map (fun qr => (pr.1 ++ qr.1, qr.2)))

/-- Alternation, left alternative preferred. -/
def malt (a b : Matcher) : Matcher := fun s => a s ++ b s

/-- Greedy option `a?`: with the piece first, without it second. -/
def mopt (a : Matcher) : Matcher := fun s => a s ++ [([], s)]

/-- Greedy bounded repetition `cls{lo,hi}` of a character class: the longest
possible run first, backtracking down to `lo` repetitions. -/
def mrepCls (p : Char → Bool) (lo hi : Nat) : Matcher := fun s =>
  let run := min (s.takeWhile p).length hi
  (List.range (run + 1)).reverse.filterMap (fun n =>
    if lo ≤ n then some (s.take n, s.drop n) else none)

/-- Greedy `cls+` of a character class. -/
def mplusCls (p : Char → Bool) : Matcher := fun s => mrepCls p 1 s.length s

/-- Greedy `cls{lo,}` of a character class. -/
def mrepClsAtLeast (p : Char → Bool) (lo : Nat) : Matcher := fun s =>
  mrepCls p lo s.length s

/-- A case-insensitive literal string (`re.IGNORECASE`). -/
def mstrCI (w : String) : Matcher := fun s =>
  if ciPrefixOf w.data s then [(s.take w.data.length, s.drop w.data.length)] else []

/-- `\d` of the phone pattern (ASCII model). -/
def isDigitChar (c : Char) : Bool := c.isDigit

/-- `[-.\s]` of the phone pattern. -/
def isSepChar (c : Char) : Bool := c = '-' || c = '.' || isPyWhite c

/-- The phone pattern of line 312:
`(\+?\d{1,3}[-.\s]?\(?\d{3}\)?[-.\s]?\d{3}[-.\s]?\d{4})`. -/
def phoneMatcher : Matcher :=
  mseq (mopt (mchr '+'))
    (mseq (mrepCls isDigitChar 1 3)
      (mseq (mopt (mcls isSepChar))
        (mseq (mopt (mchr '('))
          (mseq (mrepCls isDigitChar 3 3)
            (mseq (mopt (mchr ')'))
              (mseq (mopt (mcls isSepChar))
                (mseq (mrepCls isDigitChar 3 3)
                  (mseq (mopt (mcls isSepChar))
                    (mrepCls isDigitChar 4 4)))))))))

/-- `[A-Za-z0-9._%+-]` of the email pattern. -/
def isEmailLocalChar (c : Char) : Bool :=
  c.isAlpha || c.isDigit || c = '.' || c = '_' || c = '%' || c = '+' || c = '-'

/-- `[A-Za-z0-9.-]` of the email pattern. -/
def isEmailDomainChar (c : Char) : Bool := c.isAlpha || c.isDigit || c = '.' || c = '-'

/-- `[A-Z|a-z]` of the email pattern: the class literally contains the bar. -/
def isTldChar (c : Char) : Bool := c.isAlpha || c = '|'

/-- The email pattern of line 318 without its two `\b` anchors:
`[A-Za-z0-9._%+-]+@[A-Za-z0-9.-]+\.[A-Z|a-z]{2,}`. -/
def emailCore : Matcher :=
  mseq (mplusCls isEmailLocalChar)
    (mseq (mchr '@')
      (mseq (mplusCls isEmailDomainChar)
        (mseq (mchr '.') (mrepClsAtLeast isTldChar 2))))

/-- Whether the word-status of two neighbouring characters differs: `\b`
(`none` is the text's edge, which is outside any word). -/
def isWordOpt : Option Char → Bool
  | none => false
  | some c => isWordChar c

/-- `\b` between two neighbouring characters. -/
def wordBoundaryB (a b : Option Char) : Bool := isWordOpt a != isWordOpt b

/-- The social pattern of line 324 under `re.IGNORECASE`:
`(@\w+|linkedin\.com/in/\w+|twitter\.com/\w+)`. -/
def socialMatcher : Matcher :=
  malt (mseq (mchr '@') (mplusCls isWordChar))
    (malt (mseq (mstrCI "linkedin.com/in/") (mplusCls isWordChar))
      (mseq (mstrCI "twitter.com/") (mplusCls isWordChar)))

/-- The first (leftmost, preference-best) match of a matcher: `re.findall(...)[0]`
for a pattern without boundary anchors; `none` when `findall` returns `[]`. -/
def findFirstMatch (m : Matcher) : List Char → Option (List Char)
  | [] => ((m []).head?).map Prod.fst
  | c :: rest =>
    match (m (c :: rest)).head? with
    | some pr => some pr.1
    | none => findFirstMatch m rest

/-- The first match of the email pattern with its two `\b` anchors: the scan
tracks the previous character for the left anchor, and the right anchor
participates in the backtracking by filtering the alternatives. -/
def findFirstEmailAux : Option Char → List Char → Option (List Char)
  | _, [] => none
  | prev, c :: rest =>
    match ((if wordBoundaryB prev (some c) then
        (emailCore (c :: rest)).filter (fun pr => wordBoundaryB pr.1.getLast? pr.2.head?)
      else [])).head? with
    | some pr => some pr.1
    | none => findFirstEmailAux (some c) rest

/-- Python `"; ".join`. -/
def joinSep (sep : String) : List String → String
  | [] => ""
  | [x] => x
  | x :: y :: rest => x ++ sep ++ joinSep sep (y :: rest)

/-- The labelled `contact_info` list of `extract_contact_info` (lines 309-327):
the first phone match, the first email match and the first social match, each
present only when its pattern matched somewhere. -/
def contactParts (text : String) : List String :=
  ((findFirstMatch phoneMatcher text.data).map (fun m => "Phone: " ++ String.mk m)).toList ++
  ((findFirstEmailAux none text.data).map (fun m => "Alt Email: " ++ String.mk m)).toList ++
  ((findFirstMatch socialMatcher text.data).map (fun m => "Social: " ++ String.mk m)).toList

/-- `EmailAssistant.extract_contact_info(text)` (lines 307-329). -/
def extract_contact_info (text : String) : String :=
  let contact_info := contactParts text
  if contact_info.isEmpty then "No additional contact info found"
  else joinSep "; " contact_info

theorem joinSep_head_data (sep : String) (x : String) (xs : List String) (c : Char)
    (t : List Char) (hx : x.data = c :: t) :
    ∃ u, (joinSep sep (x :: xs)).data = c :: u := by
  cases xs with
  | nil => exact ⟨t, by simp [joinSep, hx]⟩
  | cons y ys =>
    exact ⟨t ++ sep.data ++ (joinSep sep (y :: ys)).data, by simp [joinSep, hx]⟩

theorem joinSep_ne_contact_sentinel (x : String) (xs : List String) (c : Char)
    (t : List Char) (hx : x.data = c :: t) (hc : c ≠ 'N') :
    joinSep "; " (x :: xs) ≠ "No additional contact info found" := by
  intro h
  obtain ⟨u, hu⟩ := joinSep_head_data "; " x xs c t hx
  have hd := congrArg String.data h
  rw [hu, show "No additional contact info found".data
      = 'N' :: "o additional contact info found".data from rfl] at hd
  injection hd with h1 h2
  exact hc h1

/-- The sentinel characterization of `extract_contact_info`: the sentinel is
returned exactly when none of the three patterns matches anywhere. -/
theorem extract_contact_info_sentinel (text : String) :
    extract_contact_info text = "No additional contact info found" ↔
      (findFirstMatch phoneMatcher text.data = none
        ∧ findFirstEmailAux none text.data = none
        ∧ findFirstMatch socialMatcher text.data = none) := by
  constructor
  · intro h
    rcases hP : findFirstMatch phoneMatcher text.data with _ | m
    · rcases hE : findFirstEmailAux none text.data with _ | m
      · rcases hS : findFirstMatch socialMatcher text.data with _ | m
        · exact ⟨rfl, rfl, rfl⟩
        · exfalso
          have hparts : contactParts text = ["Social: " ++ String.mk m] := by
            simp [contactParts, hP, hE, hS]
          unfold extract_contact_info at h
          rw [hparts, if_neg (by simp)] at h
          exact joinSep_ne_contact_sentinel _ _ 'S' ("ocial: ".data ++ m)
            (by rw [String.data_append]; rfl) (by decide) h
      · exfalso
        have hparts : contactParts text = ("Alt Email: " ++ String.mk m) ::
            ((findFirstMatch socialMatcher text.data).map
              (fun m => "Social: " ++ String.mk m)).toList := by
          simp [contactParts, hP, hE]
        unfold extract_contact_info at h
        rw [hparts, if_neg (by simp)] at h
        exact joinSep_ne_contact_sentinel _ _ 'A' ("lt Email: ".data ++ m)
          (by rw [String.data_append]; rfl) (by decide) h
    · exfalso
      have hparts : contactParts text = ("Phone: " ++ String.mk m) ::
          (((findFirstEmailAux none text.data).map
              (fun m => "Alt Email: " ++ String.mk m)).toList ++
            ((findFirstMatch socialMatcher text.data).map
              (fun m => "Social: " ++ String.mk m)).toList) := by
        simp [contactParts, hP]
      unfold extract_contact_info at h
      rw [hparts, if_neg (by simp)] at h
      exact joinSep_ne_contact_sentinel _ _ 'P' ("hone: ".data ++ m)
        (by rw [String.data_append]; rfl) (by decide) h
  · rintro ⟨hP, hE, hS⟩
    unfold extract_contact_info
    have hparts : contactParts text = [] := by simp [contactParts, hP, hE, hS]
    rw [hparts]
    rfl

/-! ### Requirements extraction (`EmailAssistant.extract_requirements`, lines 331-349)

Each of the three patterns is `(trigger1|trigger2|...) ([^.!?]*)` under
`re.IGNORECASE`: a trigger alternation (no alternative of a group is a
prefix of another, so at most one alternative can match at a position),
one literal space, and a greedy clause running up to the next `.`, `!` or
`?`.  `re.findall` returns the two captured groups of each non-overlapping
leftmost match. -/

/-- Triggers of `(need|want|require|request|looking for|help with) ([^.!?]*)`. -/
def reqPattern1 : List String := ["need", "want", "require", "request", "looking for", "help with"]

/-- Triggers of `(can you|could you|please) ([^.!?]*)`. -/
def reqPattern2 : List String := ["can you", "could you", "please"]

/-- Triggers of `(i would like|i want|i need) ([^.!?]*)`. -/
def reqPattern3 : List String := ["i would like", "i want", "i need"]

/-- The ordered `requirement_patterns` list (lines 335-339). -/
def req_patterns : List (List String) := [reqPattern1, reqPattern2, reqPattern3]

/-- `[^.!?]`. -/
def isClauseChar (c : Char) : Bool := !(c = '.' || c = '!' || c = '?')

/-- The first trigger alternative matching case-insensitively at this
position; the captured group keeps the original case, as `findall` does. -/
def triggerAt (triggers : List (List Char)) (s : List Char) : Option (List Char) :=
  triggers.findSome? (fun w => if ciPrefixOf w s then some (s.take w.length) else none)

/-- One position of the requirement-pattern scan: trigger, literal space,
then the greedy clause; returns the two captured groups and the rest of the
text after the match. -/
def reqMatchAt (triggers : List (List Char)) (s : List Char) :
    Option ((List Char × List Char) × List Char) :=
  match triggerAt triggers s with
  | none => none
  | some g1 =>
    match s.drop g1.length with
    | [] => none
    | x :: r2 =>
      if x = ' ' then
        let g2 := r2.takeWhile isClauseChar
        some ((g1, g2), r2.drop g2.length)
      else none

/-- The `re.findall` scan for one requirement pattern: leftmost matches,
non-overlapping, continuing after each match.  `fuel` bounds the recursion
by the text length (every step consumes at least one character). -/
def reqFindAllAux (triggers : List (List Char)) : Nat → List Char → List (List Char × List Char)
  | 0, _ => []
  | _ + 1, [] => []
  | fuel + 1, c :: rest =>
    match reqMatchAt triggers (c :: rest) with
    | some (g, r) => g :: reqFindAllAux triggers fuel r
    | none => reqFindAllAux triggers fuel rest

/-- `re.findall(pattern, text, re.IGNORECASE)` for one requirement pattern. -/
def reqFindAll (triggers : List String) (text : List Char) : List (List Char × List Char) :=
  reqFindAllAux (triggers.map String.data) text.length text

/-- `' '.join(match).strip()` (line 345). -/
def requirementOf (g : List Char × List Char) : List Char := pyStrip (g.1 ++ ' ' :: g.2)

/-- The requirement strings `extract_requirements` keeps (lines 341-347): at
most the first 3 matches of each pattern, each kept only when its trimmed,
space-joined capture is longer than 10 characters. -/
def keptRequirements (subject body : String) : List (List Char) :=
  let text := (subject ++ " " ++ body).data
  req_patterns.flatMap (fun pattern =>
    ((reqFindAll pattern text).take 3).filterMap (fun g =>
      let requirement := requirementOf g
      if 10 < requirement.length then some requirement else none))

/-- Python `"; ".join` on character lists. -/
def joinSepChars (sep : List Char) : List (List Char) → List Char
  | [] => []
  | [x] => x
  | x :: y :: rest => x ++ sep ++ joinSepChars sep (y :: rest)

/-- `EmailAssistant.extract_requirements(subject, body)` (lines 331-349). -/
def extract_requirements (subject body : String) : String :=
  let requirements := keptRequirements subject body
  if requirements.isEmpty then "General support inquiry"
  else String.mk (joinSepChars "; ".data requirements)

theorem triggerAt_some (triggers : List (List Char)) (s g1 : List Char)
    (h : triggerAt triggers s = some g1) :
    ∃ w ∈ triggers, ciPrefixOf w s = true ∧ g1 = s.take w.length := by
  induction triggers with
  | nil => simp [triggerAt] at h
  | cons w ws ih =>
    rw [triggerAt, List.findSome?_cons] at h
    by_cases hw : ciPrefixOf w s = true
    · rw [if_pos hw] at h
      exact ⟨w, List.mem_cons_self w ws, hw, (Option.some.injEq .. ▸ h).symm⟩
    · rw [if_neg hw] at h
      obtain ⟨w', hmem, hci, hg⟩ := ih h
      exact ⟨w', List.mem_cons_of_mem _ hmem, hci, hg⟩

theorem ciPrefixOf_cons_inv (c : Char) (cs s : List Char)
    (h : ciPrefixOf (c :: cs) s = true) :
    ∃ d s', s = d :: s' ∧ d.toLower = c.toLower := by
  cases s with
  | nil => simp [ciPrefixOf] at h
  | cons d s' =>
    rw [ciPrefixOf, Bool.and_eq_true] at h
    exact ⟨d, s', rfl, by simpa using (of_decide_eq_true h.1).symm⟩

/-- Every group a requirement scan emits starts, up to case, with the first
character of one of its (nonempty) trigger alternatives. -/
theorem reqFindAllAux_head (triggers : List (List Char))
    (hne : ∀ w ∈ triggers, w ≠ []) :
    ∀ (fuel : Nat) (s : List Char) (g : List Char × List Char),
      g ∈ reqFindAllAux triggers fuel s →
      ∃ w ∈ triggers, ∃ wc wcs d t, w = wc :: wcs ∧ g.1 = d :: t ∧ d.toLower = wc.toLower := by
  intro fuel
  induction fuel with
  | zero => intro s g hg; simp [reqFindAllAux] at hg
  | succ fuel ih =>
    intro s g hg
    cases s with
    | nil => simp [reqFindAllAux] at hg
    | cons c rest =>
      rw [reqFindAllAux] at hg
      rcases hm : reqMatchAt triggers (c :: rest) with _ | ⟨g0, r⟩
      · rw [hm] at hg
        exact ih rest g hg
      · rw [hm] at hg
        rcases List.mem_cons.mp hg with rfl | hrec
        · unfold reqMatchAt at hm
          rcases ht : triggerAt triggers (c :: rest) with _ | g1 <;> rw [ht] at hm <;>
            dsimp only at hm
          · exact absurd hm (by simp)
          · obtain ⟨w, hwmem, hci, hg1⟩ := triggerAt_some _ _ _ ht
            obtain ⟨wc, wcs, rfl⟩ := List.exists_cons_of_ne_nil (hne w hwmem)
            obtain ⟨d, s', hs, hdl⟩ := ciPrefixOf_cons_inv wc wcs _ hci
            have hdc : d = c := by injection hs with h1 _; exact h1.symm
            have hg1c : g1 = c :: rest.take wcs.length := by rw [hg1]; simp
            rcases hd : (c :: rest).drop g1.length with _ | ⟨x, r2⟩ <;> rw [hd] at hm <;>
              dsimp only at hm
            · exact absurd hm (by simp)
            · by_cases hx : x = ' '
              · rw [if_pos hx] at hm
                simp only [Option.some.injEq, Prod.mk.injEq] at hm
                have hg01 : g.1 = g1 := by rw [← hm.1]
                exact ⟨wc :: wcs, hwmem, wc, wcs, c, rest.take wcs.length, rfl,
                  by rw [hg01, hg1c], by rw [← hdc]; exact hdl⟩
              · rw [if_neg hx] at hm
                exact absurd hm (by simp)
        · exact ih r g hrec

/-- The trigger alternatives of every requirement pattern are nonempty and
their first characters, lowercased, are drawn from this fixed set (which the
sentinel of `extract_requirements` avoids: it starts with a capital G). -/
theorem req_trigger_heads :
    ∀ pattern ∈ req_patterns, ∀ w ∈ pattern.map String.data,
      (w.head?).map Char.toLower ∈
        [some 'n', some 'w', some 'r', some 'l', some 'h', some 'c', some 'p', some 'i'] := by
  decide

theorem dropWhile_append_single (p : Char → Bool) (x : Char) (hx : p x = false) :
    ∀ L : List Char, List.dropWhile p (L ++ [x]) = List.dropWhile p L ++ [x] := by
  intro L
  induction L with
  | nil => simp [List.dropWhile, hx]
  | cons c t ih =>
    simp only [List.cons_append, List.dropWhile_cons]
    by_cases hc : p c = true
    · simp [hc, ih]
    · simp [hc]

theorem pyStrip_cons_head (x : Char) (l : List Char) (hx : isPyWhite x = false) :
    ∃ t, pyStrip (x :: l) = x :: t := by
  unfold pyStrip
  have h1 : List.dropWhile isPyWhite (x :: l) = x :: l := by
    simp [List.dropWhile_cons, hx]
  rw [h1, List.reverse_cons, dropWhile_append_single isPyWhite x hx, List.reverse_append]
  exact ⟨(List.dropWhile isPyWhite l.reverse).reverse, by simp⟩

theorem toLower_mem_not_white (c : Char)
    (h : c.toLower ∈ ['n', 'w', 'r', 'l', 'h', 'c', 'p', 'i']) : isPyWhite c = false := by
  cases hw : isPyWhite c
  · rfl
  · exfalso
    simp only [isPyWhite, Bool.or_eq_true, decide_eq_true_eq] at hw
    rcases hw with ((((h1 | h1) | h1) | h1) | h1) | h1 <;> subst h1 <;>
      exact absurd h (by decide)

/-- Every kept requirement string starts with a letter that is, lowercased,
the first letter of a trigger alternative. -/
theorem keptRequirements_head (subject body : String) (r : List Char)
    (hr : r ∈ keptRequirements subject body) :
    ∃ c t, r = c :: t ∧ c.toLower ∈ ['n', 'w', 'r', 'l', 'h', 'c', 'p', 'i'] := by
  unfold keptRequirements at hr
  rw [List.mem_flatMap] at hr
  obtain ⟨pattern, hpat, hr⟩ := hr
  rw [List.mem_filterMap] at hr
  obtain ⟨g, hgmem, hg⟩ := hr
  have hgall : g ∈ reqFindAll pattern ((subject ++ " " ++ body)).data :=
    List.take_subset 3 _ hgmem
  have hreq : requirementOf g = r := by
    by_cases hlen : 10 < (requirementOf g).length
    · rw [if_pos hlen] at hg
      injection hg
    · rw [if_neg hlen] at hg
      exact absurd hg (by simp)
  have hne : ∀ w ∈ pattern.map String.data, w ≠ [] := by
    intro w hw hwnil
    have := req_trigger_heads pattern hpat w hw
    rw [hwnil] at this
    simp at this
  unfold reqFindAll at hgall
  obtain ⟨w, hwmem, wc, wcs, d, t2, hw, hgd, hdl⟩ :=
    reqFindAllAux_head _ hne _ _ g hgall
  have hwc : wc.toLower ∈ ['n', 'w', 'r', 'l', 'h', 'c', 'p', 'i'] := by
    have := req_trigger_heads pattern hpat w hwmem
    rw [hw] at this
    simpa using this
  have hdH : d.toLower ∈ ['n', 'w', 'r', 'l', 'h', 'c', 'p', 'i'] := by
    rw [hdl]; exact hwc
  obtain ⟨t3, ht3⟩ := pyStrip_cons_head d (t2 ++ ' ' :: g.2) (toLower_mem_not_white d hdH)
  refine ⟨d, t3, ?_, hdH⟩
  rw [← hreq]
  unfold requirementOf
  rw [hgd, List.cons_append]
  exact ht3

theorem joinSepChars_head (sep x : List Char) (xs : List (List Char)) (c : Char)
    (t : List Char) (hx : x = c :: t) :
    ∃ u, joinSepChars sep (x :: xs) = c :: u := by
  cases xs with
  | nil => exact ⟨t, by simp [joinSepChars, hx]⟩
  | cons y ys =>
    exact ⟨t ++ sep ++ joinSepChars sep (y :: ys), by simp [joinSepChars, hx]⟩

/-- The sentinel characterization of `extract_requirements`: the sentinel is
returned exactly when no match qualifies. -/
theorem extract_requirements_sentinel (subject body : String) :
    extract_requirements subject body = "General support inquiry" ↔
      keptRequirements subject body = [] := by
  constructor
  · intro h
    rcases hk : keptRequirements subject body with _ | ⟨r, rs⟩
    · rfl
    · exfalso
      obtain ⟨c, t, hr, hcH⟩ := keptRequirements_head subject body r
        (by rw [hk]; exact List.mem_cons_self r rs)
      obtain ⟨u, hu⟩ := joinSepChars_head "; ".data r rs c t hr
      unfold extract_requirements at h
      rw [hk, if_neg (by simp)] at h
      have hd := congrArg String.data h
      rw [show (String.mk (joinSepChars "; ".data (r :: rs))).data
          = joinSepChars "; ".data (r :: rs) from rfl, hu,
        show "General support inquiry".data
          = 'G' :: "eneral support inquiry".data from rfl] at hd
      injection hd with h1 _
      rw [h1] at hcH
      exact absurd hcH (by decide)
  · intro h
    unfold extract_requirements
    rw [h]
    rfl

/-- C8: extraction never fails, it signals no-match with sentinels.
`extract_contact_info` returns its sentinel exactly when none of the phone,
email and social patterns matches anywhere in the text; `extract_requirements`
keeps at most the first 3 matches per pattern, each qualifying only when its
trimmed, space-joined capture exceeds 10 characters, joins the kept strings
with "; ", and returns its sentinel exactly when none qualifies (both equations
below are the source's `if matches: join else sentinel` shape, and the two iffs
show the joined results never collide with the sentinels). -/
theorem extraction_sentinels (text subject body : String) :
    (extract_contact_info text
        = (if (contactParts text).isEmpty then "No additional contact info found"
          else joinSep "; " (contactParts text)))
    ∧ (extract_contact_info text = "No additional contact info found" ↔
      (findFirstMatch phoneMatcher text.data = none
        ∧ findFirstEmailAux none text.data = none
        ∧ findFirstMatch socialMatcher text.data = none))
    ∧ (extract_requirements subject body
        = (if (keptRequirements subject body).isEmpty then "General support inquiry"
          else String.mk (joinSepChars "; ".data (keptRequirements subject body))))
    ∧ (extract_requirements subject body = "General support inquiry" ↔
      keptRequirements subject body = []) :=
  ⟨rfl, extract_contact_info_sentinel text, rfl, extract_requirements_sentinel subject body⟩

/-! ### C7: idempotence modulo the ticket identifier -/

theorem fieldValue_ticket (sender_name solution additional_info t : String) :
    fieldValue sender_name solution t additional_info ("ticket_id".data) = t := by
  unfold fieldValue
  rw [if_neg (by decide), if_neg (by decide), if_pos rfl]

theorem fieldValue_const (sender_name solution additional_info : String) (name : List Char)
    (h : name ≠ "ticket_id".data) (t t2 : String) :
    fieldValue sender_name solution t additional_info name
      = fieldValue sender_name solution t2 additional_info name := by
  unfold fieldValue
  by_cases hA : name = "sender_name".data
  · rw [if_pos hA, if_pos hA]
  · rw [if_neg hA, if_neg hA]
    by_cases hB : name = "solution".data
    · rw [if_pos hB, if_pos hB]
    · rw [if_neg hB, if_neg hB, if_neg h, if_neg h]

/-- Rendering a parsed template depends on the ticket value only by splicing
it verbatim between fixed text pieces: one list of pieces, a function of the
other field values alone, joined by the ticket string, is the rendered text
for every ticket. -/
theorem renderTemplate_pieces (sender_name solution additional_info : String) :
    ∀ parsed : List (List Char ⊕ List Char),
      ∃ p0 ps, ∀ t : String,
        renderTemplate parsed sender_name solution t additional_info
          = joinSep t (p0 :: ps) := by
  intro parsed
  induction parsed with
  | nil => exact ⟨"", [], fun t => rfl⟩
  | cons seg rest ih =>
    obtain ⟨p0, ps, hp⟩ := ih
    rcases seg with lit | name
    · refine ⟨String.mk lit ++ p0, ps, fun t => ?_⟩
      show String.mk lit ++ renderTemplate rest sender_name solution t additional_info
          = joinSep t ((String.mk lit ++ p0) :: ps)
      rw [hp t]
      cases ps with
      | nil => rfl
      | cons q qs =>
        show String.mk lit ++ (p0 ++ t ++ joinSep t (q :: qs))
            = (String.mk lit ++ p0) ++ t ++ joinSep t (q :: qs)
        simp only [String.append_assoc]
    · by_cases hname : name = "ticket_id".data
      · subst hname
        refine ⟨"", p0 :: ps, fun t => ?_⟩
        show fieldValue sender_name solution t additional_info ("ticket_id".data) ++
            renderTemplate rest sender_name solution t additional_info
          = joinSep t ("" :: p0 :: ps)
        rw [fieldValue_ticket, hp t]
        rfl
      · refine ⟨fieldValue sender_name solution "" additional_info name ++ p0, ps, fun t => ?_⟩
        show fieldValue sender_name solution t additional_info name ++
            renderTemplate rest sender_name solution t additional_info
          = joinSep t ((fieldValue sender_name solution "" additional_info name ++ p0) :: ps)
        rw [fieldValue_const sender_name solution additional_info name hname t "", hp t]
        cases ps with
        | nil => rfl
        | cons q qs =>
          show fieldValue sender_name solution "" additional_info name ++
              (p0 ++ t ++ joinSep t (q :: qs))
            = (fieldValue sender_name solution "" additional_info name ++ p0) ++ t ++
              joinSep t (q :: qs)
          simp only [String.append_assoc]

/-- C7: regeneration is idempotent modulo the ticket identifier.  For fixed
stored analysis fields (sender, subject, body, priority, sentiment, keywords)
there is one list of text pieces — independent of the timestamp — such that
every synthesis call returns exactly those pieces joined by its own freshly
generated ticket string "SUP" ++ timestamp.  Two calls on the same stored
fields therefore yield identical response text apart from the spliced-in
ticket identifier. -/
theorem regenerate_idempotent_modulo_ticket
    (sender subject body priority sentiment keywords : String) :
    ∃ pieces : List String, ∀ now : String,
      generate_ai_response
          ⟨some sender, some subject, some body, some priority, some sentiment, some keywords⟩
          now = Except.ok (joinSep ("SUP" ++ now) pieces) := by
  obtain ⟨p0, ps, hp⟩ := renderTemplate_pieces (senderName sender)
    (find_best_solution (splitKeywordsField keywords) subject body).1
    (if strContains (pyLower body) "thank" = true then
        "We truly appreciate your positive feedback!"
      else if priority = "urgent" then
        "This case has been escalated. "
          ++ (find_best_solution (splitKeywordsField keywords) subject body).2
      else "")
    (parseFormat ((templateLookup (resolveTemplateKey priority sentiment)).getD ""))
  refine ⟨p0 :: ps, fun now => ?_⟩
  show Except.ok (renderTemplate
      (parseFormat ((templateLookup (resolveTemplateKey priority sentiment)).getD ""))
      (senderName sender)
      (find_best_solution (splitKeywordsField keywords) subject body).1
      ("SUP" ++ now)
      (if strContains (pyLower body) "thank" = true then
          "We truly appreciate your positive feedback!"
        else if priority = "urgent" then
          "This case has been escalated. "
            ++ (find_best_solution (splitKeywordsField keywords) subject body).2
        else ""))
    = Except.ok (joinSep ("SUP" ++ now) (p0 :: ps))
  rw [hp ("SUP" ++ now)]

/-! ### Sanity evaluations

Concrete runs of the embedded extractors, agreeing with the behaviour of the
source's regular expressions on the same inputs (including the word-boundary
anchors, backtracking, case-insensitive alternations and the social-handle
match inside an email address). -/

theorem extract_contact_info_example :
    extract_contact_info "reach me at +1 555 123 4567 or bob@example.com"
      = "Phone: +1 555 123 4567; Alt Email: bob@example.com; Social: @example" := rfl

theorem extract_requirements_example :
    extract_requirements "Need help" "I need help with my account please. Can you reset it?"
      = "Need help I need help with my account please; Can you reset it; I need help with my account please" := rfl

theorem extract_keywords_raw_example :
    extractKeywordsRaw "API error code in Login, database5 crash-test"
      = ["API", "error code", "crash", "Login", "error"] := rfl

/-- The spec's end-to-end example: the system-down email is urgent and its
body classifies negative under the rule-based fallback. -/
theorem end_to_end_urgent_example :
    determine_priority "URGENT: system down"
        "Our production system is broken, cannot access and it's critical, please help ASAP"
      = "urgent"
    ∧ rule_based_sentiment
        "Our production system is broken, cannot access and it's critical, please help ASAP"
      = ("negative", 7/10) := ⟨rfl, rfl⟩

end EmailAssist
